import Mathlib

/-!
Verification of the audio-normalization pipeline of the
`n8n-nodes-transcribe-audio` node against its specification.

The embedding follows the two near-duplicate implementations of
`AudioTranscribe.execute`:
* `src/nodes/AudioTranscribeNode/AudioTranscribe.node.ts` (called "file 1"
  below): routes MP3 input through ffmpeg, downmixes, and in
  continue-on-fail mode builds the error record inside the catch block
  from `this.getInputData(itemIndex)` and pushes it onto the `items` array
  it is iterating;
* `src/unnamed/part_000` (called "file 2" below): reads the binary buffer
  directly, downmixes, and collects outputs into a separate `returnData`
  array.

Sample values are modelled as elements of a division ring (instantiated
with the real numbers in the theorems, where the scaling factor is
`Real.sqrt 2`, the embedding of `Math.sqrt(2)`).
-/

/-- Result of `wav.getSamples()`. Modelled from the spec: the wavefile
library returns a bare sample sequence for a single-channel file and a
list of per-channel sequences for a multichannel file, which is what the
`Array.isArray(audioData)` test in `execute` distinguishes. -/
inductive Samples (α : Type) where
  | mono (data : List α)
  | multi (channels : List (List α))

/-- The in-place scaling loop of `execute` (file 1 lines 220-223, file 2
lines 196-199):

`for (let i = 0; i < audioData.length; i++) audioData[0][i] = SCALING_FACTOR * (audioData[0][i] + audioData[1][i]) / 2`

`k` is the loop bound `audioData.length`, i.e. the number of channels, and
`ch0`, `ch1` are `audioData[0]` and `audioData[1]`.  A write to an index
beyond the length of the typed array `audioData[0]` is discarded by
JavaScript, hence the output keeps the length of `ch0`; each index of
`ch0` is read before it is written, so the loop is a pure per-index map.
Out-of-range reads of `ch1` are modelled with default `0`; they can only
be observed when the channels have unequal lengths, which the `PcmBuffer`
invariant of the spec (all channels have identical sample count) rules
out. -/
def scaleLoop {α : Type} [DivisionRing α] (s : α) (ch0 ch1 : List α) (k : Nat) : List α :=
  (List.range ch0.length).map fun i =>
    if i < k then s * (ch0.getD i 0 + ch1.getD i 0) / 2 else ch0.getD i 0

/-- The downmix/scale step of `execute` (file 1 lines 217-226, file 2
lines 194-202): if `getSamples()` returned an array of channels and it is
nonempty, run the scaling loop on channel 0 and return channel 0;
otherwise return the sample sequence unchanged.  (For an empty channel
array the source would read `audioData[0]` as `undefined`; that case is
unreachable because the multichannel shape only arises for channel count
at least 2, and it is modelled by the empty sequence.) -/
def downmixStep {α : Type} [DivisionRing α] (s : α) : Samples α → List α
  | Samples.mono d => d
  | Samples.multi chs =>
      if 0 < chs.length then
        scaleLoop s (chs.headD []) (chs[1]?.getD []) chs.length
      else []

/-- All sample values of a buffer are bounded in absolute value by `m`. -/
def allSamplesWithin (m : ℝ) : Samples ℝ → Prop
  | Samples.mono d => ∀ x ∈ d, |x| ≤ m
  | Samples.multi chs => ∀ c ∈ chs, ∀ x ∈ c, |x| ≤ m

theorem one_le_sqrt_two : (1 : ℝ) ≤ Real.sqrt 2 := by
  nlinarith [Real.sq_sqrt (by norm_num : (0:ℝ) ≤ 2), Real.sqrt_nonneg 2]

theorem list_range_three : List.range 3 = [0, 1, 2] := rfl

/-- C1: the spec claims every output sample `i < n` of a stereo downmix
equals `sqrt 2 * (left i + right i) / 2`, but the loop bound in the source
is `audioData.length` (the channel count, 2), not the per-channel sample
count, so only samples 0 and 1 are scaled.  On the stereo buffer with
`left = right = [1, 1, 1]` the code leaves sample 2 equal to `1`, while
the claim requires `sqrt 2 * (1 + 1) / 2 = sqrt 2 ≠ 1`. -/
theorem stereo_downmix_scales_only_first_two_samples :
    downmixStep (Real.sqrt 2) (Samples.multi [[1, 1, 1], [1, 1, 1]]) =
      [Real.sqrt 2, Real.sqrt 2, 1]
    ∧ (1 : ℝ) ≠ Real.sqrt 2 * (1 + 1) / 2 := by
  constructor
  · simp only [downmixStep, scaleLoop, List.length_cons, List.length_nil, List.headD,
      List.get?, Option.getD, if_pos (by norm_num : 0 < 0 + 1 + 1)]
    norm_num [list_range_three, List.getD]
  · intro h
    have hs : Real.sqrt 2 ^ 2 = 2 := Real.sq_sqrt (by norm_num)
    have h2 : Real.sqrt 2 * (1 + 1) / 2 = Real.sqrt 2 := by ring
    rw [h2] at h
    rw [← h] at hs
    norm_num at hs

/-- C8: for a mono buffer `getSamples()` returns a bare sequence, the
`Array.isArray` branch is skipped, and the downmix/scale step is the
identity. -/
theorem mono_downmix_is_identity (d : List ℝ) :
    downmixStep (Real.sqrt 2) (Samples.mono d) = d := rfl

/-- C3 counterexample: the claim says a channel count of 3 fails with
`UnsupportedChannelLayout` and produces no partial output, but the
downmix step of `execute` has no failure branch at all: on the 3-channel
buffer with every channel `[0, 0, 0]` it returns the output sequence
`[0, 0, 0]`. -/
theorem three_channels_not_rejected :
    downmixStep (Real.sqrt 2) (Samples.multi [[0, 0, 0], [0, 0, 0], [0, 0, 0]]) =
      [(0 : ℝ), 0, 0] := by
  simp only [downmixStep, scaleLoop, List.length_cons, List.length_nil, List.headD,
    List.getElem?_cons_succ, List.getElem?_cons_zero, Option.getD,
    if_pos (by norm_num : 0 < 0 + 1 + 1 + 1)]
  norm_num [list_range_three, List.getD]

/-- C3 amended: for any multichannel buffer (channel count at least 2),
the downmix step raises no error and returns channel 0, where the sample
at each index `i` below the channel count `(l0 :: l1 :: rest).length` is
replaced by `sqrt 2 * (ch0 i + ch1 i) / 2` and every other sample is kept;
channels beyond the first two are ignored, so channel counts above 2 are
processed silently instead of being rejected. -/
theorem multichannel_downmix_behavior (l0 l1 : List ℝ) (rest : List (List ℝ))
    (i : Nat) (hi : i < l0.length) :
    (downmixStep (Real.sqrt 2) (Samples.multi (l0 :: l1 :: rest)))[i]? =
      some (if i < (l0 :: l1 :: rest).length then
              Real.sqrt 2 * (l0.getD i 0 + l1.getD i 0) / 2
            else l0.getD i 0) := by
  simp only [downmixStep, scaleLoop, List.headD, List.getElem?_cons_succ,
    List.getElem?_cons_zero, Option.getD,
    if_pos (show 0 < (l0 :: l1 :: rest).length by simp)]
  rw [List.getElem?_map, List.getElem?_range hi]
  rfl

/-- C3 amended, witness at a concrete input: on the 3-channel buffer with
every channel `[2, 2, 2]`, output sample 0 is `sqrt 2 * (2 + 2) / 2`. -/
theorem multichannel_downmix_behavior_witness :
    (downmixStep (Real.sqrt 2) (Samples.multi [[2, 2, 2], [2, 2, 2], [2, 2, 2]]))[0]? =
      some (Real.sqrt 2 * 2) := by
  have h := multichannel_downmix_behavior [2, 2, 2] [2, 2, 2] [[2, 2, 2]] 0 (by norm_num)
  simp only [List.length_cons, List.getD] at h
  norm_num at h
  rw [h]
  norm_num
  ring


theorem getD_zero_abs_le (l : List ℝ) (i : Nat) (m : ℝ) (hm : 0 ≤ m)
    (h : ∀ x ∈ l, |x| ≤ m) : |l.getD i 0| ≤ m := by
  rw [List.getD_eq_getElem?_getD]
  cases hg : l[i]? with
  | none => simpa using hm
  | some x =>
      have hx : x ∈ l := by
        have hg2 : l.get? i = some x := by
          rw [List.get?_eq_getElem?]
          exact hg
        exact List.get?_mem hg2
      simpa using h x hx

theorem scaleLoop_abs_le (ch0 ch1 : List ℝ) (k : Nat)
    (h0 : ∀ x ∈ ch0, |x| ≤ 1) (h1 : ∀ x ∈ ch1, |x| ≤ 1) :
    ∀ y ∈ scaleLoop (Real.sqrt 2) ch0 ch1 k, |y| ≤ Real.sqrt 2 := by
  intro y hy
  rcases List.mem_map.mp hy with ⟨i, hir, rfl⟩
  have hs : (0 : ℝ) ≤ Real.sqrt 2 := Real.sqrt_nonneg 2
  have ha : |ch0.getD i 0| ≤ 1 := getD_zero_abs_le ch0 i 1 (by norm_num) h0
  have hb : |ch1.getD i 0| ≤ 1 := getD_zero_abs_le ch1 i 1 (by norm_num) h1
  by_cases hik : i < k
  · rw [if_pos hik]
    have habs : |ch0.getD i 0 + ch1.getD i 0| ≤ 2 :=
      (abs_add _ _).trans (by linarith)
    calc |Real.sqrt 2 * (ch0.getD i 0 + ch1.getD i 0) / 2|
        = Real.sqrt 2 * |ch0.getD i 0 + ch1.getD i 0| / 2 := by
          rw [abs_div, abs_mul, abs_of_nonneg hs, abs_two]
      _ ≤ Real.sqrt 2 * 2 / 2 := by nlinarith
      _ = Real.sqrt 2 := by ring
  · rw [if_neg hik]
    exact ha.trans one_le_sqrt_two

/-- C6 counterexample: the claim says every sample of the normalized
output lies within `[-1, 1]`, but the energy-preserving scale factor can
push values outside that interval: on the stereo buffer with both
channels equal to `[1]` (full-scale correlated channels, values within
`[-1, 1]`), the downmix step outputs `[sqrt 2]`, and `1 < sqrt 2`. -/
theorem downmix_output_exceeds_unit_interval :
    downmixStep (Real.sqrt 2) (Samples.multi [[1], [1]]) = [Real.sqrt 2]
    ∧ 1 < Real.sqrt 2 := by
  constructor
  · simp only [downmixStep, scaleLoop, List.length_cons, List.length_nil, List.headD,
      List.getElem?_cons_succ, List.getElem?_cons_zero, Option.getD,
      if_pos (by norm_num : 0 < 0 + 1 + 1)]
    norm_num [List.range, List.range.loop, List.getD]
  · nlinarith [Real.sq_sqrt (by norm_num : (0:ℝ) ≤ 2), Real.sqrt_nonneg 2]

/-- C6 amended: when every input sample lies within `[-1, 1]`, every
sample of the downmix output lies within `[-sqrt 2, sqrt 2]`; the bound
`[-1, 1]` claimed by the spec does not hold, because no clamp is applied
after the `sqrt 2 * (l + r) / 2` scaling. -/
theorem downmix_output_bounded_by_sqrt_two (samp : Samples ℝ)
    (hbd : allSamplesWithin 1 samp) :
    ∀ y ∈ downmixStep (Real.sqrt 2) samp, |y| ≤ Real.sqrt 2 := by
  cases samp with
  | mono d =>
      intro y hy
      exact le_trans (hbd y hy) one_le_sqrt_two
  | multi chs =>
      cases chs with
      | nil => intro y hy; simp [downmixStep] at hy
      | cons c t =>
          intro y hy
          simp only [downmixStep, List.headD, if_pos (show 0 < (c :: t).length by simp)] at hy
          refine scaleLoop_abs_le c ((c :: t)[1]?.getD []) _ ?_ ?_ y hy
          · exact hbd c (List.mem_cons_self c t)
          · cases t with
            | nil => intro x hx; simp at hx
            | cons c1 t1 =>
                intro x hx
                simp only [List.getElem?_cons_succ, List.getElem?_cons_zero, Option.getD] at hx
                exact hbd c1 (List.mem_cons_of_mem c (List.mem_cons_self c1 t1)) x hx

/-- C6 amended, witness: the stereo buffer with channels `[1]` and `[-1]`
has all samples within `[-1, 1]`, and every downmix output sample is
within `[-sqrt 2, sqrt 2]`. -/
theorem downmix_output_bounded_by_sqrt_two_witness :
    allSamplesWithin 1 (Samples.multi [[1], [-1]])
    ∧ ∀ y ∈ downmixStep (Real.sqrt 2) (Samples.multi [[1], [-1]]), |y| ≤ Real.sqrt 2 := by
  have hbd : allSamplesWithin 1 (Samples.multi [[(1:ℝ)], [-1]]) := by
    intro c hc x hx
    simp only [List.mem_cons, List.not_mem_nil, or_false] at hc
    rcases hc with rfl | rfl <;> simp_all
  exact ⟨hbd, downmix_output_bounded_by_sqrt_two _ hbd⟩

/-- The format-probing condition of `execute` (file 1 line 182):
`mimeType === 'audio/mpeg' || mimeType === 'audio/mp3' || fileExtension === 'mp3'`. -/
def needsTranscode (mimeType : String) (fileExtension : Option String) : Bool :=
  mimeType == "audio/mpeg" || mimeType == "audio/mp3" || fileExtension == some "mp3"

/-- Where an input buffer is sent by `execute` (file 1 lines 182-210):
either into the ffmpeg conversion or directly on to WAV parsing. -/
inductive AudioRoute where
  | transcode (input : List Nat)
  | direct (buffer : List Nat)
deriving DecidableEq

/-- The routing branch of `execute` (file 1 lines 182-210): the matched
buffer is fed to the ffmpeg pipeline, any other buffer is used directly as
`audioBufferWav` without modification. -/
def routeAudio (mimeType : String) (fileExtension : Option String)
    (buffer : List Nat) : AudioRoute :=
  if needsTranscode mimeType fileExtension then AudioRoute.transcode buffer
  else AudioRoute.direct buffer

/-- C7: the transcoder adapter is invoked exactly when the declared MIME
type is `audio/mpeg` or `audio/mp3` or the file-extension hint is `mp3`;
every other buffer, including ones with unrecognized MIME types or
extensions, is passed through unchanged to WAV parsing rather than
rejected. -/
theorem transcoder_invoked_iff_mpeg (mimeType : String) (fileExtension : Option String)
    (buffer : List Nat) :
    (routeAudio mimeType fileExtension buffer = AudioRoute.transcode buffer ↔
      mimeType = "audio/mpeg" ∨ mimeType = "audio/mp3" ∨ fileExtension = some "mp3")
    ∧ (routeAudio mimeType fileExtension buffer = AudioRoute.direct buffer ↔
      ¬(mimeType = "audio/mpeg" ∨ mimeType = "audio/mp3" ∨ fileExtension = some "mp3")) := by
  have hcond : needsTranscode mimeType fileExtension = true ↔
      (mimeType = "audio/mpeg" ∨ mimeType = "audio/mp3" ∨ fileExtension = some "mp3") := by
    simp [needsTranscode, or_assoc]
  by_cases h : mimeType = "audio/mpeg" ∨ mimeType = "audio/mp3" ∨ fileExtension = some "mp3"
  · rw [routeAudio, if_pos (hcond.mpr h)]
    simp [h]
  · rw [routeAudio, if_neg (fun hb => h (hcond.mp hb))]
    simp [h]

/-- Outcome of one ffmpeg invocation, as observed by the event handlers
that `execute` registers (file 1 lines 186-205): either the `'error'`
event fires, carrying the error's message and the captured stdout and
stderr, or the stream emits `'data'` chunks and then the `'end'` event. -/
inductive EngineOutcome where
  | errored (errMessage stdout stderr : String)
  | ended (chunks : List (List Nat))
deriving DecidableEq

/-- An error surfaced to the host, as built by
`new NodeOperationError(node, message, { itemIndex })`. -/
structure NodeError where
  message : String
  itemIndex : Nat
deriving DecidableEq

/-- The promise body of the MP3 conversion in `execute` (file 1 lines
184-206): on the `'error'` event it logs `Std out:`/`Std err:` lines and
rejects with `Conversion failed: ` followed by the error's message; on
`'end'` it resolves with the concatenation of the collected chunks.  The
result pairs the promise outcome with the log lines written. -/
def transcodeMp3 (itemIndex : Nat) (outcome : EngineOutcome) :
    Except NodeError (List Nat) × List String :=
  match outcome with
  | EngineOutcome.errored errMessage stdout stderr =>
      (Except.error { message := "Conversion failed: " ++ errMessage, itemIndex := itemIndex },
       ["Std out: " ++ stdout, "Std err: " ++ stderr])
  | EngineOutcome.ended chunks => (Except.ok chunks.flatten, [])

/-- C5 counterexample: the claim says the user-visible `ConversionFailed`
message includes the captured stderr verbatim, but the rejection message
is built only from the engine error's own message; with error message
`boom` and captured stderr `Invalid data found when processing input stream`,
the produced message is `Conversion failed: boom`, which cannot contain
the 47-character stderr text. -/
theorem conversion_error_message_omits_stderr :
    (transcodeMp3 0 (EngineOutcome.errored "boom" ""
        "Invalid data found when processing input stream")).1 =
      Except.error { message := "Conversion failed: boom", itemIndex := 0 }
    ∧ ¬ ∃ pre post : String,
        "Conversion failed: boom" =
          pre ++ "Invalid data found when processing input stream" ++ post := by
  refine ⟨rfl, ?_⟩
  rintro ⟨pre, post, h⟩
  have hl := congrArg String.length h
  rw [String.length_append, String.length_append] at hl
  have h1 : ("Conversion failed: boom" : String).length = 23 := rfl
  have h2 : ("Invalid data found when processing input stream" : String).length = 47 := rfl
  rw [h1, h2] at hl
  omega

/-- C5 amended: when the external engine errors, the adapter rejects with
a conversion error whose message is `Conversion failed: ` followed by the
engine error's message, and writes the captured stdout and stderr to the
log rather than into the error message; when the engine ends having
emitted no output, the adapter resolves with an empty buffer instead of
failing. -/
theorem conversion_failure_shape (itemIndex : Nat) (errMessage stdout stderr : String) :
    transcodeMp3 itemIndex (EngineOutcome.errored errMessage stdout stderr) =
      (Except.error { message := "Conversion failed: " ++ errMessage, itemIndex := itemIndex },
       ["Std out: " ++ stdout, "Std err: " ++ stderr])
    ∧ transcodeMp3 itemIndex (EngineOutcome.ended []) = (Except.ok [], []) :=
  ⟨rfl, rfl⟩

/-- The output options `execute` sets on the ffmpeg command (file 1 lines
186-190): `.format('wav').audioCodec('pcm_s16le').audioFrequency(16000).audioChannels(1)`. -/
structure FfmpegConfig where
  format : String
  audioCodec : String
  audioFrequency : Nat
  audioChannels : Nat
deriving DecidableEq

def mp3ConversionConfig : FfmpegConfig :=
  { format := "wav", audioCodec := "pcm_s16le", audioFrequency := 16000, audioChannels := 1 }

/-- Encoding parameters of a PCM byte stream. -/
structure PcmStreamMeta where
  codec : String
  sampleRate : Nat
  channels : Nat
deriving DecidableEq

/-- Modelled from the spec: the external transcoding engine honors the
requested output options, so the encoding of a successful conversion's
output stream is the one named in the configuration. -/
def engineOutputMeta (cfg : FfmpegConfig) : PcmStreamMeta :=
  { codec := cfg.audioCodec, sampleRate := cfg.audioFrequency, channels := cfg.audioChannels }

/-- C10: every successfully converted stream is 16-bit little-endian
linear PCM (`pcm_s16le`) at 16000 Hz with exactly 1 channel, because those
are the output options the adapter fixes on the engine invocation. -/
theorem transcoder_output_is_s16le_16k_mono :
    engineOutputMeta mp3ConversionConfig =
      { codec := "pcm_s16le", sampleRate := 16000, channels := 1 } := rfl

/-- Sample format of a parsed WAV buffer, as far as the normalizer
distinguishes it: 16-bit signed integer PCM or 32-bit float. -/
inductive SampleFormat where
  | int16
  | float32
deriving DecidableEq

/-- A parsed WAV buffer, the state mutated by `wav.toBitDepth('32f')` and
`wav.toSampleRate(16000)` (file 1 lines 212-214, file 2 lines 189-191).
Sample values are rationals so that the integer-to-float rescaling is
exact. -/
structure PcmWav where
  sampleRate : Nat
  format : SampleFormat
  channels : List (List ℚ)
deriving DecidableEq

/-- Modelled from the spec: `wav.toBitDepth('32f')` (the wavefile library,
outside this repository) converts the buffer to 32-bit float samples,
dividing 16-bit signed integer values by their maximum magnitude 32768; a
buffer already in float format is left as is. -/
def toBitDepth32f (w : PcmWav) : PcmWav :=
  match w.format with
  | SampleFormat.int16 =>
      { w with format := SampleFormat.float32,
               channels := w.channels.map (List.map (fun x => x / 32768)) }
  | SampleFormat.float32 => w

/-- The waveform normalizer of `execute` (file 1 lines 212-214, file 2
lines 189-191): first `wav.toBitDepth('32f')`, then
`wav.toSampleRate(16000)`.  The resampling algorithm is an implementation
detail of the wavefile library, so it is abstracted as an arbitrary
function `resample` applied after the bit-depth conversion, exactly in the
source's call order. -/
def waveformNormalize (resample : PcmWav → PcmWav) (w : PcmWav) : PcmWav :=
  resample (toBitDepth32f w)

/-- C9: for every 16-bit PCM buffer and every resampling function, the
normalizer hands the resampler the buffer whose samples have already been
converted to float by dividing by their maximum magnitude 32768 — the
bit-depth conversion happens strictly before the sample-rate
conversion. -/
theorem bit_depth_conversion_precedes_resampling (resample : PcmWav → PcmWav)
    (w : PcmWav) (h : w.format = SampleFormat.int16) :
    waveformNormalize resample w =
      resample { sampleRate := w.sampleRate, format := SampleFormat.float32,
                 channels := w.channels.map (List.map (fun x => x / 32768)) } := by
  cases w with
  | mk sr fmt chs =>
      cases h
      rfl

/-- C9 witness: with the identity resampler, a 44100 Hz 16-bit buffer with
samples `[16384, -32768]` normalizes to a float buffer with samples
`[1/2, -1]`. -/
theorem bit_depth_conversion_precedes_resampling_witness :
    waveformNormalize id
        { sampleRate := 44100, format := SampleFormat.int16, channels := [[16384, -32768]] } =
      { sampleRate := 44100, format := SampleFormat.float32, channels := [[1/2, -1]] } := by
  have h := bit_depth_conversion_precedes_resampling id
    { sampleRate := 44100, format := SampleFormat.int16, channels := [[16384, -32768]] } rfl
  rw [h]
  norm_num

/-- The structured JSON data of a work item, modelled as an ordered field
map. -/
def Json : Type := List (String × String)

instance : DecidableEq Json := by
  unfold Json
  infer_instance

/-- A work item as `execute` reads it: its JSON fields and, optionally, a
binary audio payload under the configured property name.  The payload's
contents are irrelevant to the loop plumbing and are left opaque. -/
structure Item where
  json : Json
  binary : Option (List Nat)
deriving DecidableEq

/-- The message of the error thrown when a work item has no binary data
(file 1 line 158, file 2 line 136). -/
def noBinaryMsg : String := "No binary data found on item!"

/-- The assignment `newItem.json.transcription = result`: the
`transcription` field is set (replacing any existing one) on the item's
JSON fields. -/
def withTranscription (j : Json) (t : String) : Json :=
  j.filter (fun kv => kv.fst != "transcription") ++ [("transcription", t)]

/-- One output record of the run: a successful item (the item with its
transcription attached) or, in continue-on-fail mode, the error record
`{ json: items[itemIndex].json, error, pairedItem: itemIndex }`. -/
inductive OutRec where
  | ok (item : Item)
  | errRec (json : Json) (error : NodeError) (pairedItem : Nat)
deriving DecidableEq

/-- The per-item loop body of file 2's `execute` in continue-on-fail mode
(lines 124-235): a missing binary payload yields the `MissingInput` error
record for the item's index; otherwise the rest of the pipeline runs —
it is abstracted as the function `p` from item index and payload to either
a transcription or an error — and yields the transcribed item or the
error record. -/
def itemResult (p : Nat → List Nat → Except NodeError String) (idx : Nat)
    (it : Item) : OutRec :=
  match it.binary with
  | none => OutRec.errRec it.json { message := noBinaryMsg, itemIndex := idx } idx
  | some b =>
      match p idx b with
      | Except.ok t =>
          OutRec.ok { json := withTranscription it.json t, binary := it.binary }
      | Except.error e => OutRec.errRec it.json e idx

/-- File 2's `execute` loop in continue-on-fail mode (lines 124-235):
iterate over the items from index `start`, appending each item's output
record (success or error) to `returnData`. -/
def executeContinue2 (p : Nat → List Nat → Except NodeError String) :
    List Item → Nat → List OutRec
  | [], _ => []
  | it :: rest, start =>
      (match it.binary with
       | none => OutRec.errRec it.json { message := noBinaryMsg, itemIndex := start } start
       | some b =>
           match p start b with
           | Except.ok t =>
               OutRec.ok { json := withTranscription it.json t, binary := it.binary }
           | Except.error e => OutRec.errRec it.json e start)
      :: executeContinue2 p rest (start + 1)

theorem executeContinue2_getElem (p : Nat → List Nat → Except NodeError String)
    (items : List Item) (start j : Nat) (hj : j < items.length) :
    (executeContinue2 p items start)[j]? =
      some (itemResult p (start + j) (items.get ⟨j, hj⟩)) := by
  induction items generalizing start j with
  | nil => simp at hj
  | cons it rest ih =>
      cases j with
      | zero =>
          simp only [executeContinue2, List.getElem?_cons_zero, List.get, Nat.add_zero]
          rfl
      | succ j =>
          simp only [executeContinue2, List.getElem?_cons_succ, List.get]
          rw [ih (start + 1) j (by simpa using Nat.lt_of_succ_lt_succ hj)]
          have harith : start + 1 + j = start + (j + 1) := by omega
          rw [harith]

/-- C4: in file 2's continue-on-fail run, the output record at every
position `j` is a function of item `j` alone (so a failing item leaves
every other item's processing unaffected), and when item `j` carries no
binary payload its output record is exactly the `MissingInput` error
record: the item's original JSON fields, the `No binary data found on
item!` error raised with the item's index, and `pairedItem` equal to that
index. -/
theorem missing_input_yields_error_record (p : Nat → List Nat → Except NodeError String)
    (items : List Item) (j : Nat) (hj : j < items.length) :
    (executeContinue2 p items 0)[j]? = some (itemResult p j (items.get ⟨j, hj⟩))
    ∧ ((items.get ⟨j, hj⟩).binary = none →
        itemResult p j (items.get ⟨j, hj⟩) =
          OutRec.errRec (items.get ⟨j, hj⟩).json
            { message := noBinaryMsg, itemIndex := j } j) := by
  constructor
  · have h := executeContinue2_getElem p items 0 j hj
    simpa using h
  · intro hb
    rw [itemResult, hb]

/-- C4 witness: a two-item batch whose second item has no binary payload;
the first item is transcribed and the second yields the `MissingInput`
error record with `pairedItem = 1`. -/
theorem missing_input_yields_error_record_witness :
    (executeContinue2 (fun _ _ => Except.ok "hello") [{ json := [("a", "b")], binary := some [7] }, { json := [("c", "d")], binary := none }] 0)[1]? =
      some (OutRec.errRec [("c", "d")] { message := noBinaryMsg, itemIndex := 1 } 1) := by
  have h := missing_input_yields_error_record (fun _ _ => Except.ok "hello")
    [{ json := [("a", "b")], binary := some [7] }, { json := [("c", "d")], binary := none }]
    1 (by norm_num)
  rw [h.1, h.2 rfl]
  rfl


/-- Outcome of file 1's `execute` loop in continue-on-fail mode: the loop
exits normally and `execute` returns the mutated `items` array, or an
exception raised inside the catch handler itself escapes the loop at the
given item index and `execute` rejects, or the step budget ran out with
the loop guard still true. -/
inductive RunOutcome where
  | finished (items : List Item)
  | crashed (itemIndex : Nat)
  | outOfFuel
deriving DecidableEq

/-- Modelled from the spec: the host workflow engine (outside this
repository) resolves `this.getInputData(inputIndex)` against the node's
declared input connectors, returning the run's input items for a declared
connector and failing for any other index.  This node declares exactly one
input, `inputs: [NodeConnectionType.Main]` (file 1 line 54), so only index
0 resolves. -/
def getInputDataAt (items : List Item) (inputIndex : Nat) : Option (List Item) :=
  if inputIndex = 0 then some items else none

/-- The catch-handler push of file 1's continue-on-fail branch (line 251):
`items.push({ json: this.getInputData(itemIndex)[0].json, error, pairedItem: itemIndex })`.
`getInputData` takes an input-connector index, not an item index, so for
`itemIndex ≥ 1` the call addresses a connector that does not exist and the
expression raises (either `getInputData` itself throws, or it yields no
array and the `[0].json` access raises a TypeError) — modelled as `none`,
meaning the exception escapes the catch block.  For `itemIndex = 0` the
push succeeds and appends a record carrying `items[0].json` (the first
item's JSON fields, which at index 0 is the failing item itself) and no
`binary` property.  The record's `error`/`pairedItem` fields are never
read by the loop and are omitted from the `Item` model. -/
def pushErrorRecord (items : List Item) (itemIndex : Nat) : Option (List Item) :=
  match getInputDataAt items itemIndex with
  | none => none
  | some l =>
      match l[0]? with
      | none => none
      | some it0 => some (items ++ [{ json := it0.json, binary := none }])

/-- File 1's `execute` loop in continue-on-fail mode (lines 146-265), run
with a step budget `fuel`.  The loop tests `itemIndex < items.length` each
iteration; on success it stores the transcription on the item in place; on
any failure the catch handler runs `pushErrorRecord`, which either appends
the error record to the very array being iterated (index 0) or itself
raises, so that the exception escapes and the run crashes (index ≥ 1).
The rest of the per-item pipeline is abstracted as `p`. -/
def runContinue1 (p : Nat → List Nat → Except NodeError String) :
    Nat → List Item → Nat → RunOutcome
  | 0, _, _ => RunOutcome.outOfFuel
  | fuel + 1, items, idx =>
      if h : idx < items.length then
        match (items.get ⟨idx, h⟩).binary with
        | none =>
            (match pushErrorRecord items idx with
             | none => RunOutcome.crashed idx
             | some items2 => runContinue1 p fuel items2 (idx + 1))
        | some b =>
            match p idx b with
            | Except.ok t =>
                runContinue1 p fuel
                  (items.set idx
                    { json := withTranscription (items.get ⟨idx, h⟩).json t,
                      binary := some b }) (idx + 1)
            | Except.error _ =>
                (match pushErrorRecord items idx with
                 | none => RunOutcome.crashed idx
                 | some items2 => runContinue1 p fuel items2 (idx + 1))
      else RunOutcome.finished items

/-- C2: the claim says `execute` terminates normally in continue-on-fail
mode with every original input item processed exactly once, but in file 1
a failure at any item index ≥ 1 makes the catch handler itself throw
(`this.getInputData(itemIndex)` addresses a nonexistent input connector),
the exception escapes, and the remaining original items are never
processed.  On the three-item batch whose second item has no binary
payload, the run crashes at index 1 — item 0 is processed, the error
record for item 1 is never pushed, and item 2 is processed zero times
rather than once. -/
theorem execute_continue_crashes_in_catch :
    runContinue1 (fun _ _ => Except.ok "t") 9
        [{ json := [("a", "1")], binary := some [0] },
         { json := [("b", "2")], binary := none },
         { json := [("c", "3")], binary := some [0] }] 0 =
      RunOutcome.crashed 1 := by
  rfl
